import Mathlib

/-!
Shallow embedding of the MobSin/Whirl 2D scene-graph engine core, and proofs of
the specification's claims about it.

Embedded components:
* `Container.calculateDerived` (src/src/objects/Container/Container.js) — the
  derived-transform computation over a mutable world of entities.
* The `child.onAdd` hook of `Container` together with the Child mixin's
  `add`/`remove` operations (the mixin itself is not under src/, so those two
  operations are modelled from the spec).
* `ObjectManager.add`, `ObjectManager.get` and `ObjectManager._destroy`
  (src/src/MobSin.js) — the identity registry.
* `UpdateManager._start`, `_stop` and `_update` (src/unnamed/part_002) — the
  update scheduler, with the browser's animation-frame queue modelled as a
  counter of pending callbacks.

Entities live in a `World : Nat → EntityObj` heap indexed by references;
registry objects live in a `GHeap : Nat → GObj` heap. Numeric fields use `ℚ`
(the JavaScript values of interest are exact small rationals such as 0.5).
-/

namespace MobSin

/-- The `derived` snapshot of an entity: effective absolute x, y, alpha and
scale after composing with ancestors. -/
structure Derived where
  x : ℚ
  y : ℚ
  alpha : ℚ
  scale : ℚ
deriving DecidableEq, Repr

/-- An entity as seen by `Container.calculateDerived` and the child system:
`isEntity` models the JavaScript `instanceof Entity` test, `posX`/`posY` the
`position` point, and `parent`/`children` the tree links. -/
structure EntityObj where
  isEntity : Bool
  posX : ℚ
  posY : ℚ
  alpha : ℚ
  scale : ℚ
  derived : Derived
  parent : Option Nat
  children : List Nat
deriving Repr

/-- A mutable heap of entities, indexed by object reference. -/
abbrev World := Nat → EntityObj

/-- Embeds `Container.calculateDerived` from src/src/objects/Container/Container.js:
sets `derived` to the entity's own position/alpha/scale, then, if the parent is
an `Entity`, adds the parent's derived x/y and multiplies by the parent's
derived alpha/scale. -/
def calculateDerived (w : World) (r : Nat) : World :=
  let e := w r
  let base : Derived := ⟨e.posX, e.posY, e.alpha, e.scale⟩
  let d : Derived :=
    match e.parent with
    | some p =>
      if (w p).isEntity then
        ⟨base.x + (w p).derived.x, base.y + (w p).derived.y,
         base.alpha * (w p).derived.alpha, base.scale * (w p).derived.scale⟩
      else base
    | none => base
  fun q => if q = r then { e with derived := d } else w q

/-- A top-down derived-transform pass: `calculateDerived` applied to the given
references in order (root before descendants). -/
def derivePass (w : World) (rs : List Nat) : World :=
  rs.foldl calculateDerived w

/-- Concrete scene for the spec's worked example: reference 0 is root R at
position (10,10) with alpha 1 and scale 1; reference 1 is child C at local
position (5,5) with alpha 0.5 and scale 2, parented to R. -/
def exampleWorld : World := fun r =>
  if r = 0 then ⟨true, 10, 10, 1, 1, ⟨0, 0, 0, 0⟩, none, [1]⟩
  else if r = 1 then ⟨true, 5, 5, 1/2, 2, ⟨0, 0, 0, 0⟩, some 0, []⟩
  else ⟨false, 0, 0, 0, 0, ⟨0, 0, 0, 0⟩, none, []⟩

end MobSin

namespace MobSin

/-- Modelled from the spec: the Child mixin's `remove` operation (the
`ChildMixin` module is not under src/). Removes the child from the parent's
ordered sequence and clears the child's `parent` back-reference; removing a
child that is not present is a no-op. -/
def childRemove (w : World) (p o : Nat) : World :=
  let w1 : World :=
    fun q => if q = p then { w q with children := (w q).children.filter (fun x => x != o) } else w q
  fun q => if q = o then { w1 q with parent := none } else w1 q

/-- Pointwise heap update setting an entity's `parent` back-reference
(`object.parent = this` in the `onAdd` hook of Container.js). -/
def setParent (w : World) (o c : Nat) : World :=
  fun q => if q = o then { w q with parent := some c } else w q

/-- Pointwise heap update appending a child to a container's ordered child
list (the Child mixin's append step, modelled from the spec). -/
def appendChild (w : World) (c o : Nat) : World :=
  fun q => if q = c then { w q with children := (w q).children ++ [o] } else w q

/-- Attaching object `o` as a child of container `c`: the `child.onAdd` hook
from src/src/objects/Container/Container.js (reject a non-Entity with a
warning and `false`; otherwise detach from any current parent and set the
`parent` back-reference), composed with the Child mixin's `add` (modelled from
the spec: the child is appended to the ordered child list when `onAdd` did not
return `false`). Returns the updated world and whether the attach happened. -/
def attach (w : World) (c o : Nat) : World × Bool :=
  if (w o).isEntity then
    let w1 :=
      match (w o).parent with
      | some p => childRemove w p o
      | none => w
    (appendChild (setParent w1 o c) c o, true)
  else (w, false)

/-- The child-tree consistency invariant: membership in a container's child
list implies the child's `parent` back-reference points to that container.
(It follows that no entity lies in two different containers' child lists.) -/
def childInv (w : World) : Prop :=
  ∀ x c, x ∈ (w c).children → (w x).parent = some c

/-- Claim C1: Derived-transform computation. For an entity whose parent is absent
or not a composable Entity, `calculateDerived` sets `derived` to its own
absolute values; for an entity with a composable parent it sets
derived.x = own x + parent's derived x, derived.y = own y + parent's derived y,
derived.alpha = own alpha × parent's derived alpha, derived.scale = own scale ×
parent's derived scale; and on the worked example a top-down pass over root R
(10,10, alpha 1, scale 1) and child C (5,5, alpha 0.5, scale 2) yields
C.derived = {x:15, y:15, alpha:0.5, scale:2}. -/
theorem C1_calculateDerived_compose (w : World) (r : Nat) :
    ((match (w r).parent with
      | some p => (w p).isEntity = false
      | none => True) →
      ((calculateDerived w r) r).derived =
        ⟨(w r).posX, (w r).posY, (w r).alpha, (w r).scale⟩) ∧
    (∀ p, (w r).parent = some p → (w p).isEntity = true →
      ((calculateDerived w r) r).derived =
        ⟨(w r).posX + (w p).derived.x, (w r).posY + (w p).derived.y,
         (w r).alpha * (w p).derived.alpha, (w r).scale * (w p).derived.scale⟩) ∧
    (derivePass exampleWorld [0, 1] 1).derived = ⟨15, 15, 1/2, 2⟩ := by
  refine ⟨?_, ?_, ?_⟩
  · intro h
    simp only [calculateDerived, if_pos rfl]
    rcases hp : (w r).parent with _ | p
    · simp [hp]
    · rw [hp] at h
      simp [hp, h]
  · intro p hp hE
    simp only [calculateDerived, if_pos rfl]
    simp [hp, hE]
  · simp [derivePass, calculateDerived, exampleWorld]
    norm_num

/-- Witness for `C1_calculateDerived_compose`: in the worked example,
`calculateDerived` on child C (after R's pass) composes with R's derived
snapshot, C having a composable parent. -/
theorem C1_calculateDerived_compose_witness :
    ((calculateDerived (derivePass exampleWorld [0]) 1) 1).derived =
      ⟨(derivePass exampleWorld [0] 1).posX + (derivePass exampleWorld [0] 0).derived.x,
       (derivePass exampleWorld [0] 1).posY + (derivePass exampleWorld [0] 0).derived.y,
       (derivePass exampleWorld [0] 1).alpha * (derivePass exampleWorld [0] 0).derived.alpha,
       (derivePass exampleWorld [0] 1).scale * (derivePass exampleWorld [0] 0).derived.scale⟩ :=
  (C1_calculateDerived_compose (derivePass exampleWorld [0]) 1).2.1 0 rfl rfl

/-- Claim C2: Reattaching an entity `e` currently parented to container `a` onto a
different container `b`: afterwards `a`'s child list no longer contains `e`,
`b`'s child list contains `e` exactly once, and `e`'s parent back-reference is
`b` — the attach detaches from the previous parent's list before appending. -/
theorem C2_attach_reparent (w : World) (a b e : Nat)
    (hE : (w e).isEntity = true) (hP : (w e).parent = some a)
    (hAB : a ≠ b) (hNB : e ∉ (w b).children) :
    e ∉ (((attach w b e).1) a).children ∧
    (((attach w b e).1) b).children.count e = 1 ∧
    (((attach w b e).1) e).parent = some b := by
  simp only [attach, hE, hP, if_true]
  refine ⟨?_, ?_, ?_⟩
  · by_cases hae : a = e <;>
      by_cases hab : a = b <;>
        simp_all [appendChild, setParent, childRemove, List.mem_filter]
  · by_cases hbe : b = e <;>
      by_cases hba : b = a <;>
        simp_all [appendChild, setParent, childRemove, List.count_append,
          List.count_eq_zero]
  · by_cases heb : e = b <;>
      simp_all [appendChild, setParent, childRemove]

/-- Concrete reparenting scene: container 0 holds entity 2; container 1 is
empty. -/
def reparentWorld : World := fun r =>
  if r = 0 then ⟨true, 0, 0, 1, 1, ⟨0, 0, 0, 0⟩, none, [2]⟩
  else if r = 1 then ⟨true, 0, 0, 1, 1, ⟨0, 0, 0, 0⟩, none, []⟩
  else if r = 2 then ⟨true, 0, 0, 1, 1, ⟨0, 0, 0, 0⟩, some 0, []⟩
  else ⟨false, 0, 0, 0, 0, ⟨0, 0, 0, 0⟩, none, []⟩

/-- Witness for `C2_attach_reparent`: moving entity 2 from container 0 to
container 1 in `reparentWorld`. -/
theorem C2_attach_reparent_witness :
    2 ∉ (((attach reparentWorld 1 2).1) 0).children ∧
    (((attach reparentWorld 1 2).1) 1).children.count 2 = 1 ∧
    (((attach reparentWorld 1 2).1) 2).parent = some 1 :=
  C2_attach_reparent reparentWorld 0 1 2 rfl rfl (by decide) (by decide)

/-- Scene with a parent/child pair: container 0 holds container 1. Attaching
0 under 1 would create a cycle. -/
def cycleWorld : World := fun r =>
  if r = 0 then ⟨true, 0, 0, 1, 1, ⟨0, 0, 0, 0⟩, none, [1]⟩
  else if r = 1 then ⟨true, 0, 0, 1, 1, ⟨0, 0, 0, 0⟩, some 0, []⟩
  else ⟨false, 0, 0, 0, 0, ⟨0, 0, 0, 0⟩, none, []⟩

/-- Claim C9, counterexample: attaching container 0 as a child of its own child 1
is NOT rejected — the attach succeeds and afterwards 0's parent is 1 while 1's
parent is 0, so container 0 has become its own ancestor (a cycle). -/
theorem C9_cycle_not_rejected :
    (attach cycleWorld 1 0).2 = true ∧
    ((attach cycleWorld 1 0).1 0).parent = some 1 ∧
    ((attach cycleWorld 1 0).1 1).parent = some 0 ∧
    0 ∈ ((attach cycleWorld 1 0).1 1).children := by
  refine ⟨rfl, rfl, rfl, ?_⟩
  decide

lemma childRemove_parent (w : World) (p o q : Nat) :
    ((childRemove w p o) q).parent = if q = o then none else (w q).parent := by
  simp only [childRemove]
  split_ifs <;> rfl

lemma childRemove_children (w : World) (p o q : Nat) :
    ((childRemove w p o) q).children =
      if q = p then (w q).children.filter (fun x => x != o) else (w q).children := by
  simp only [childRemove]
  split_ifs <;> rfl

lemma setParent_parent (w : World) (o c q : Nat) :
    ((setParent w o c) q).parent = if q = o then some c else (w q).parent := by
  simp only [setParent]
  split_ifs <;> rfl

lemma setParent_children (w : World) (o c q : Nat) :
    ((setParent w o c) q).children = (w q).children := by
  simp only [setParent]
  split_ifs <;> rfl

lemma appendChild_parent (w : World) (c o q : Nat) :
    ((appendChild w c o) q).parent = (w q).parent := by
  simp only [appendChild]
  split_ifs <;> rfl

lemma appendChild_children (w : World) (c o q : Nat) :
    ((appendChild w c o) q).children =
      if q = c then (w q).children ++ [o] else (w q).children := by
  simp only [appendChild]
  split_ifs <;> rfl

/-- Pointwise `parent` field after a successful attach. -/
lemma attach_parent (w : World) (c o q : Nat) (hE : (w o).isEntity = true) :
    (((attach w c o).1) q).parent = if q = o then some c else (w q).parent := by
  rcases hp : (w o).parent with _ | p
  · simp only [attach, hE, hp, if_true, appendChild_parent, setParent_parent]
  · simp only [attach, hE, hp, if_true, appendChild_parent, setParent_parent,
      childRemove_parent]
    split_ifs <;> rfl

/-- Pointwise `children` field after a successful attach with a parented
child. -/
lemma attach_children_some (w : World) (c o p q : Nat) (hE : (w o).isEntity = true)
    (hp : (w o).parent = some p) :
    (((attach w c o).1) q).children =
      (if q = c then
        (if q = p then (w q).children.filter (fun x => x != o) else (w q).children) ++ [o]
      else
        (if q = p then (w q).children.filter (fun x => x != o) else (w q).children)) := by
  simp only [attach, hE, hp, if_true, appendChild_children, setParent_children,
    childRemove_children]

/-- Pointwise `children` field after a successful attach of an unparented
child. -/
lemma attach_children_none (w : World) (c o q : Nat) (hE : (w o).isEntity = true)
    (hp : (w o).parent = none) :
    (((attach w c o).1) q).children =
      if q = c then (w q).children ++ [o] else (w q).children := by
  simp only [attach, hE, hp, if_true, appendChild_children, setParent_children]

/-- Claim C9, amended: the attach operation performs no ancestry check — attaching
a container under one of its own descendants is accepted and can make a
container its own ancestor — but every attach still detaches the child from its
previous parent's list first, so the single-parent invariant `childInv` (each
entity in a child list has its parent back-reference pointing to exactly that
container, hence lies in at most one child list) is preserved by every attach. -/
theorem C9_attach_preserves_single_parent (w : World) (c o : Nat)
    (h : childInv w) : childInv (attach w c o).1 := by
  by_cases hE : (w o).isEntity
  · rcases hp : (w o).parent with _ | p
    · intro x c' hx
      rw [attach_children_none w c o c' hE hp] at hx
      rw [attach_parent w c o x hE]
      by_cases hxo : x = o
      · subst hxo
        rw [if_pos rfl]
        by_cases hcc : c' = c
        · rw [hcc]
        · rw [if_neg hcc] at hx
          exact absurd ((h x c' hx).symm.trans hp) (by simp)
      · rw [if_neg hxo]
        by_cases hcc : c' = c
        · rw [if_pos hcc, List.mem_append] at hx
          rcases hx with hx | hx
          · rw [h x c' hx, hcc]
          · exact absurd (List.mem_singleton.mp hx) hxo
        · rw [if_neg hcc] at hx
          exact h x c' hx
    · intro x c' hx
      rw [attach_children_some w c o p c' hE hp] at hx
      rw [attach_parent w c o x hE]
      by_cases hxo : x = o
      · subst hxo
        rw [if_pos rfl]
        by_cases hcc : c' = c
        · rw [hcc]
        · exfalso
          rw [if_neg hcc] at hx
          by_cases hcp : c' = p
          · rw [if_pos hcp, List.mem_filter] at hx
            simp at hx
          · rw [if_neg hcp] at hx
            exact hcp (Option.some_injective _ ((h x c' hx).symm.trans hp))
      · rw [if_neg hxo]
        have hx' : x ∈ (w c').children := by
          have hsub :
              x ∈ (if c' = p then (w c').children.filter (fun y => y != o)
                    else (w c').children) →
              x ∈ (w c').children := by
            split_ifs with hcp
            · exact fun hm => (List.mem_filter.mp hm).1
            · exact id
          by_cases hcc : c' = c
          · rw [if_pos hcc, List.mem_append] at hx
            rcases hx with hx | hx
            · exact hsub hx
            · exact absurd (List.mem_singleton.mp hx) hxo
          · rw [if_neg hcc] at hx
            exact hsub hx
        exact h x c' hx'
  · have hE' : (w o).isEntity = false := by simpa using hE
    simp only [attach, hE']
    simpa using h

/-- A world of childless, unparented entities. -/
def plainWorld : World := fun _ => ⟨true, 0, 0, 1, 1, ⟨0, 0, 0, 0⟩, none, []⟩

/-- Witness for `C9_attach_preserves_single_parent`: attaching entity 0 under
container 1 in `plainWorld` preserves the single-parent invariant. -/
theorem C9_attach_preserves_single_parent_witness :
    childInv (attach plainWorld 1 0).1 :=
  C9_attach_preserves_single_parent plainWorld 1 0
    (by intro x c hx; simp [plainWorld] at hx)

/-! ### The identity registry (`ObjectManager`, src/src/MobSin.js) -/

/-- Registry bucket of an object, standing for the JavaScript
`instanceof Viewport` / `instanceof Stage` tests (the two classes are
disjoint). -/
inductive Kind
  | generic
  | viewport
  | stage
deriving DecidableEq, Repr

/-- An object as seen by the `ObjectManager`: `isBase` models
`instanceof Base`, `_id` the unique id (`none` = the JavaScript `undefined`
before registration), and `stage` a Viewport's bound stage reference
(`Viewport#stage`). -/
structure GObj where
  isBase : Bool
  kind : Kind
  _id : Option Nat
  stage : Option Nat
deriving DecidableEq, Repr

/-- A mutable heap of registry objects, indexed by object reference. -/
abbrev GHeap := Nat → GObj

/-- Events emitted through the game event mixin that the registry touches. -/
inductive GameEvent
  | didDestroy (object : Nat)
deriving DecidableEq, Repr

/-- The `ObjectManager`'s own state plus the two single-slot references held
by the setup manager (`game.setup.viewport` and `game.setup.stage`), and the
log of events emitted so far. -/
structure OMState where
  _index : Nat
  _store : List Nat
  _viewports : List Nat
  _stages : List Nat
  setupViewport : Option Nat
  setupStage : Option Nat
  events : List GameEvent
deriving DecidableEq, Repr

/-- Outcome of `ObjectManager.add`: success, or one of the two warnings it
logs before aborting. -/
inductive AddResult
  | ok
  | warnedNotBase
  | warnedDuplicate
deriving DecidableEq, Repr

/-- Embeds `ObjectManager.add` from src/src/MobSin.js: rejects (warns, aborts) a
non-`Base` object or one already in `_store`; otherwise assigns
`_id = _index++`, appends to `_store`, and to `_viewports` / `_stages` when
the object is a Viewport / Stage. -/
def add (h : GHeap) (s : OMState) (r : Nat) : GHeap × OMState × AddResult :=
  if !(h r).isBase then (h, s, .warnedNotBase)
  else if r ∈ s._store then (h, s, .warnedDuplicate)
  else
    let h' : GHeap := fun q => if q = r then { h r with _id := some s._index } else h q
    let s' : OMState :=
      { s with
        _index := s._index + 1
        _store := s._store ++ [r]
        _viewports := if (h r).kind = .viewport then s._viewports ++ [r] else s._viewports
        _stages := if (h r).kind = .stage then s._stages ++ [r] else s._stages }
    (h', s', .ok)

/-- Embeds `ObjectManager.get` from src/src/MobSin.js: a fresh copy of the store,
optionally filtered. -/
def get (s : OMState) (filter : Option (Nat → Bool)) : List Nat :=
  match filter with
  | some f => s._store.filter f
  | none => s._store

/-- Embeds `ObjectManager._destroy` from src/src/MobSin.js: filters the object out of
`_store` by `_id` inequality; for a Viewport additionally filters `_viewports`
and clears `game.setup.viewport` when it is this object; for a Stage filters
`_stages`, calls `setStage(null)` on every stored viewport bound to it
(Modelled from the spec: `Viewport.setStage` is not under src/ — clearing the
binding sets the viewport's `stage` to none), and clears `game.setup.stage`
when it is this object; finally emits `didDestroy` and returns the object. -/
def destroy (h : GHeap) (s : OMState) (r : Nat) : GHeap × OMState × Nat :=
  let s1 : OMState :=
    { s with _store := s._store.filter (fun item => (h r)._id != (h item)._id) }
  let s2 : OMState :=
    if (h r).kind = .viewport then
      let sv : OMState :=
        { s1 with _viewports := s1._viewports.filter (fun item => (h r)._id != (h item)._id) }
      if sv.setupViewport = some r then { sv with setupViewport := none } else sv
    else s1
  let step : GHeap × OMState :=
    if (h r).kind = .stage then
      let ss : OMState :=
        { s2 with _stages := s2._stages.filter (fun item => (h r)._id != (h item)._id) }
      let h2 : GHeap :=
        fun q => if q ∈ ss._viewports ∧ (h q).stage = some r then { h q with stage := none } else h q
      let ss2 : OMState :=
        if ss.setupStage = some r then { ss with setupStage := none } else ss
      (h2, ss2)
    else (h, s2)
  (step.1, { step.2 with events := step.2.events ++ [GameEvent.didDestroy r] }, r)

/-- The ids assigned by a sequence of `add` calls, in call order: a successful
`add` records the `_index` it consumed. -/
def addTrace (h : GHeap) (s : OMState) (rs : List Nat) : List Nat :=
  match rs with
  | [] => []
  | r :: rest =>
    let res := add h s r
    if res.2.2 = .ok then s._index :: addTrace res.1 res.2.1 rest
    else addTrace res.1 res.2.1 rest

lemma add_of_not_ok (h : GHeap) (s : OMState) (r : Nat)
    (hno : (add h s r).2.2 ≠ AddResult.ok) :
    (add h s r).1 = h ∧ (add h s r).2.1 = s := by
  unfold add at *
  split_ifs at * <;> simp_all

lemma add_ok_eq (h : GHeap) (s : OMState) (r : Nat)
    (hB : (h r).isBase = true) (hs : r ∉ s._store) :
    add h s r =
      (fun q => if q = r then { h r with _id := some s._index } else h q,
       { s with
          _index := s._index + 1
          _store := s._store ++ [r]
          _viewports := if (h r).kind = .viewport then s._viewports ++ [r] else s._viewports
          _stages := if (h r).kind = .stage then s._stages ++ [r] else s._stages },
       .ok) := by
  unfold add
  rw [hB]
  simp [hs]

lemma addTrace_lower (h : GHeap) (s : OMState) (rs : List Nat) :
    ∀ i ∈ addTrace h s rs, s._index ≤ i := by
  induction rs generalizing h s with
  | nil => simp [addTrace]
  | cons r rest ih =>
    intro i hi
    rw [addTrace] at hi
    by_cases hok : (add h s r).2.2 = AddResult.ok
    · rw [if_pos hok] at hi
      rcases List.mem_cons.mp hi with hi | hi
      · exact hi.ge
      · have hidx : (add h s r).2.1._index = s._index + 1 := by
          unfold add at hok ⊢
          split_ifs at hok ⊢ <;> simp_all
        have := ih (add h s r).1 (add h s r).2.1 i hi
        omega
    · rw [if_neg hok] at hi
      rcases add_of_not_ok h s r hok with ⟨h1, h2⟩
      rw [h1, h2] at hi
      exact ih h s i hi

lemma addTrace_sorted (h : GHeap) (s : OMState) (rs : List Nat) :
    (addTrace h s rs).Sorted (· < ·) := by
  induction rs generalizing h s with
  | nil => simp [addTrace]
  | cons r rest ih =>
    rw [addTrace]
    by_cases hok : (add h s r).2.2 = AddResult.ok
    · rw [if_pos hok]
      refine List.sorted_cons.mpr ⟨?_, ih _ _⟩
      intro b hb
      have hidx : (add h s r).2.1._index = s._index + 1 := by
        unfold add at hok ⊢
        split_ifs at hok ⊢ <;> simp_all
      have := addTrace_lower (add h s r).1 (add h s r).2.1 rest b hb
      omega
    · rw [if_neg hok]
      exact ih _ _

lemma addTrace_range (h : GHeap) (s : OMState) (rs : List Nat)
    (hnd : rs.Nodup) (hB : ∀ r ∈ rs, (h r).isBase = true)
    (hs : ∀ r ∈ rs, r ∉ s._store) :
    addTrace h s rs = List.range' s._index rs.length := by
  induction rs generalizing h s with
  | nil => simp [addTrace]
  | cons r rest ih =>
    have hBr : (h r).isBase = true := hB r (List.mem_cons_self r rest)
    have hsr : r ∉ s._store := hs r (List.mem_cons_self r rest)
    simp only [addTrace, add_ok_eq h s r hBr hsr, reduceIte, List.length_cons,
      List.range'_succ]
    congr 1
    refine ih _ _ (List.nodup_cons.mp hnd).2 ?_ ?_
    · intro r' hr'
      by_cases hrr : r' = r <;> simp_all
    · intro r' hr'
      simp only [List.mem_append, List.mem_singleton, not_or]
      exact ⟨hs r' (List.mem_cons_of_mem r hr'),
        fun hc => (List.nodup_cons.mp hnd).1 (hc ▸ hr')⟩

/-- Claim C3: the ids handed out by a sequence of `add` calls are strictly
increasing in call order (hence pairwise unique) and bounded below by the
current `_index` (hence an id is never reused: `_index` never decreases, and
every id ever assigned was a past value of `_index`). For a sequence of
distinct valid (`Base`-derived) objects none of which is already stored, the
assigned ids are exactly `_index, _index+1, …`. -/
theorem C3_ids_unique_increasing (h : GHeap) (s : OMState) (rs : List Nat) :
    (addTrace h s rs).Sorted (· < ·) ∧
    (∀ i ∈ addTrace h s rs, s._index ≤ i) ∧
    (rs.Nodup → (∀ r ∈ rs, (h r).isBase = true) → (∀ r ∈ rs, r ∉ s._store) →
      addTrace h s rs = List.range' s._index rs.length) :=
  ⟨addTrace_sorted h s rs, addTrace_lower h s rs, addTrace_range h s rs⟩

/-- A heap of plain valid registry objects. -/
def regHeap : GHeap := fun _ => ⟨true, .generic, none, none⟩

/-- An empty registry with `_index = 0`. -/
def regState0 : OMState := ⟨0, [], [], [], none, none, []⟩

/-- Witness for `C3_ids_unique_increasing`: registering the three distinct
objects 5, 6, 7 into an empty registry assigns ids 0, 1, 2. -/
theorem C3_ids_unique_increasing_witness :
    addTrace regHeap regState0 [5, 6, 7] = List.range' 0 3 :=
  (C3_ids_unique_increasing regHeap regState0 [5, 6, 7]).2.2 (by decide)
    (fun r _ => rfl) (by intro r _ hc; simp [regState0] at hc)

lemma destroy_ret (h : GHeap) (s : OMState) (r : Nat) : (destroy h s r).2.2 = r := by
  simp only [destroy]

lemma destroy_index (h : GHeap) (s : OMState) (r : Nat) :
    (destroy h s r).2.1._index = s._index := by
  simp only [destroy]
  split_ifs <;> rfl

lemma destroy_store (h : GHeap) (s : OMState) (r : Nat) :
    (destroy h s r).2.1._store =
      s._store.filter (fun item => (h r)._id != (h item)._id) := by
  simp only [destroy]
  split_ifs <;> rfl

lemma destroy_events (h : GHeap) (s : OMState) (r : Nat) :
    (destroy h s r).2.1.events = s.events ++ [GameEvent.didDestroy r] := by
  simp only [destroy]
  split_ifs <;> rfl

lemma destroy_viewports (h : GHeap) (s : OMState) (r : Nat) :
    (destroy h s r).2.1._viewports =
      if (h r).kind = .viewport then
        s._viewports.filter (fun item => (h r)._id != (h item)._id)
      else s._viewports := by
  simp only [destroy]
  split_ifs <;> simp_all

lemma destroy_stages (h : GHeap) (s : OMState) (r : Nat) :
    (destroy h s r).2.1._stages =
      if (h r).kind = .stage then
        s._stages.filter (fun item => (h r)._id != (h item)._id)
      else s._stages := by
  simp only [destroy]
  split_ifs <;> simp_all

lemma destroy_setupViewport (h : GHeap) (s : OMState) (r : Nat) :
    (destroy h s r).2.1.setupViewport =
      if (h r).kind = .viewport ∧ s.setupViewport = some r then none
      else s.setupViewport := by
  simp only [destroy]
  split_ifs <;> simp_all

lemma destroy_setupStage (h : GHeap) (s : OMState) (r : Nat) :
    (destroy h s r).2.1.setupStage =
      if (h r).kind = .stage ∧ s.setupStage = some r then none
      else s.setupStage := by
  simp only [destroy]
  split_ifs <;> simp_all

lemma destroy_heap (h : GHeap) (s : OMState) (r q : Nat) :
    (destroy h s r).1 q =
      if (h r).kind = .stage ∧ q ∈ s._viewports ∧ (h q).stage = some r then
        { h q with stage := none }
      else h q := by
  simp only [destroy]
  split_ifs <;> simp_all

/-- Claim C4: `destroy` removes the object from the live store (a subsequent `get`
query never includes it), and emits `didDestroy` carrying it and returns it;
when it is a Viewport it is removed from `_viewports` and an active
`setup.viewport` reference to it is cleared; when it is a Stage it is removed
from `_stages`, every stored viewport bound to it has the binding cleared, and
an active `setup.stage` reference to it is cleared. -/
theorem C4_destroy_severs (h : GHeap) (s : OMState) (r : Nat) :
    (destroy h s r).2.2 = r ∧
    r ∉ get (destroy h s r).2.1 none ∧
    (destroy h s r).2.1.events = s.events ++ [GameEvent.didDestroy r] ∧
    ((h r).kind = .viewport →
      r ∉ (destroy h s r).2.1._viewports ∧
      (s.setupViewport = some r → (destroy h s r).2.1.setupViewport = none)) ∧
    ((h r).kind = .stage →
      r ∉ (destroy h s r).2.1._stages ∧
      (∀ v ∈ s._viewports, ((destroy h s r).1 v).stage ≠ some r) ∧
      (s.setupStage = some r → (destroy h s r).2.1.setupStage = none)) := by
  refine ⟨destroy_ret h s r, ?_, destroy_events h s r, ?_, ?_⟩
  · simp only [get, destroy_store, List.mem_filter]
    rintro ⟨-, hne⟩
    simp at hne
  · intro hk
    refine ⟨?_, ?_⟩
    · rw [destroy_viewports, if_pos hk]
      intro hmem
      have := (List.mem_filter.mp hmem).2
      simp at this
    · intro hset
      rw [destroy_setupViewport, if_pos ⟨hk, hset⟩]
  · intro hk
    refine ⟨?_, ?_, ?_⟩
    · rw [destroy_stages, if_pos hk]
      intro hmem
      have := (List.mem_filter.mp hmem).2
      simp at this
    · intro v hv
      rw [destroy_heap]
      by_cases hb : (h v).stage = some r
      · rw [if_pos ⟨hk, hv, hb⟩]
        simp
      · rw [if_neg (by simp [hb])]
        exact hb
    · intro hset
      rw [destroy_setupStage, if_pos ⟨hk, hset⟩]

/-- A registry scene for destroying a stage: object 0 is a registered stage
(id 0), object 1 a registered viewport (id 1) bound to stage 0, and both
single-slot setup references point at them. -/
def stageHeap : GHeap := fun q =>
  if q = 0 then ⟨true, .stage, some 0, none⟩
  else if q = 1 then ⟨true, .viewport, some 1, some 0⟩
  else ⟨true, .generic, none, none⟩

/-- Registry state matching `stageHeap`. -/
def stageState : OMState := ⟨2, [0, 1], [1], [0], some 1, some 0, []⟩

/-- Witness for `C4_destroy_severs`: destroying stage 0 in `stageHeap` removes
it from the store and `_stages`, unbinds viewport 1 from it, and clears
`setup.stage`. -/
theorem C4_destroy_severs_witness :
    0 ∉ get (destroy stageHeap stageState 0).2.1 none ∧
    0 ∉ (destroy stageHeap stageState 0).2.1._stages ∧
    ((destroy stageHeap stageState 0).1 1).stage ≠ some 0 ∧
    (destroy stageHeap stageState 0).2.1.setupStage = none :=
  ⟨(C4_destroy_severs stageHeap stageState 0).2.1,
   ((C4_destroy_severs stageHeap stageState 0).2.2.2.2 rfl).1,
   ((C4_destroy_severs stageHeap stageState 0).2.2.2.2 rfl).2.1 1 (by decide),
   ((C4_destroy_severs stageHeap stageState 0).2.2.2.2 rfl).2.2 rfl⟩

/-- Claim C7: every validation rejection is non-fatal and mutation-free — `add` on
a non-`Base` object warns and returns heap and state unchanged, `add` on an
already-stored object warns and returns heap and state unchanged (store size
and the object's id in particular), and the container `onAdd` hook rejects a
non-Entity child with a warning, returning `false` with the world unchanged. -/
theorem C7_rejections_mutation_free (h : GHeap) (s : OMState) (r : Nat)
    (w : World) (c o : Nat) :
    ((h r).isBase = false → add h s r = (h, s, AddResult.warnedNotBase)) ∧
    ((h r).isBase = true → r ∈ s._store → add h s r = (h, s, AddResult.warnedDuplicate)) ∧
    ((w o).isEntity = false → attach w c o = (w, false)) := by
  refine ⟨?_, ?_, ?_⟩
  · intro hB
    unfold add
    rw [hB]
    simp
  · intro hB hmem
    unfold add
    rw [hB]
    simp [hmem]
  · intro hO
    unfold attach
    rw [hO]
    simp

/-- A heap of objects that do not derive from `Base`. -/
def badHeap : GHeap := fun _ => ⟨false, .generic, none, none⟩

/-- A registry state already holding object 5. -/
def dupState : OMState := ⟨1, [5], [], [], none, none, []⟩

/-- Witness for `C7_rejections_mutation_free`: a non-`Base` add, a duplicate
add, and a non-Entity attach are all rejected without mutation. -/
theorem C7_rejections_mutation_free_witness :
    add badHeap regState0 0 = (badHeap, regState0, AddResult.warnedNotBase) ∧
    add regHeap dupState 5 = (regHeap, dupState, AddResult.warnedDuplicate) ∧
    attach exampleWorld 0 5 = (exampleWorld, false) :=
  ⟨(C7_rejections_mutation_free badHeap regState0 0 exampleWorld 0 5).1 rfl,
   (C7_rejections_mutation_free regHeap dupState 5 exampleWorld 0 5).2.1 rfl
     (by decide),
   (C7_rejections_mutation_free regHeap dupState 5 exampleWorld 0 5).2.2 rfl⟩

/-- A registry holding the single generic object 0 with id 0. -/
def oneObjHeap : GHeap := fun q =>
  if q = 0 then ⟨true, .generic, some 0, none⟩ else ⟨true, .generic, none, none⟩

/-- Registry state matching `oneObjHeap`. -/
def oneObjState : OMState := ⟨1, [0], [], [], none, none, []⟩

/-- Claim C8, counterexample: destroying object 0 twice emits a `didDestroy` event
on BOTH calls — the second call on the already-removed object is not free of
observable effects, contradicting the claim that nothing but the no-op filter
pass happens. -/
theorem C8_second_destroy_still_emits :
    (destroy (destroy oneObjHeap oneObjState 0).1
        (destroy oneObjHeap oneObjState 0).2.1 0).2.1.events =
      [GameEvent.didDestroy 0, GameEvent.didDestroy 0] := rfl

/-- Claim C8, amended: destroying an object that is already absent from the
registry (no stored object shares its id, no viewport is bound to it, and
neither single-slot setup reference points at it) leaves the heap, the store,
both subsets, both setup references and `_index` unchanged and returns the
object — the only observable effect is that a `didDestroy` event is emitted
again. -/
theorem C8_destroy_absent_only_emits (h : GHeap) (s : OMState) (r : Nat)
    (hst : ∀ item ∈ s._store, (h item)._id ≠ (h r)._id)
    (hvp : ∀ item ∈ s._viewports, (h item)._id ≠ (h r)._id)
    (hsg : ∀ item ∈ s._stages, (h item)._id ≠ (h r)._id)
    (hbind : ∀ v ∈ s._viewports, (h v).stage ≠ some r)
    (hsv : s.setupViewport ≠ some r) (hss : s.setupStage ≠ some r) :
    (destroy h s r).1 = h ∧
    (destroy h s r).2.1._store = s._store ∧
    (destroy h s r).2.1._viewports = s._viewports ∧
    (destroy h s r).2.1._stages = s._stages ∧
    (destroy h s r).2.1.setupViewport = s.setupViewport ∧
    (destroy h s r).2.1.setupStage = s.setupStage ∧
    (destroy h s r).2.1._index = s._index ∧
    (destroy h s r).2.1.events = s.events ++ [GameEvent.didDestroy r] ∧
    (destroy h s r).2.2 = r := by
  refine ⟨?_, ?_, ?_, ?_, ?_, ?_, destroy_index h s r, destroy_events h s r,
    destroy_ret h s r⟩
  · funext q
    rw [destroy_heap]
    by_cases hq : q ∈ s._viewports
    · rw [if_neg (by simp [hbind q hq])]
    · rw [if_neg (by simp [hq])]
  · rw [destroy_store]
    refine List.filter_eq_self.mpr ?_
    intro a ha
    simpa using (hst a ha).symm
  · rw [destroy_viewports]
    split_ifs with hk
    · refine List.filter_eq_self.mpr ?_
      intro a ha
      simpa using (hvp a ha).symm
    · rfl
  · rw [destroy_stages]
    split_ifs with hk
    · refine List.filter_eq_self.mpr ?_
      intro a ha
      simpa using (hsg a ha).symm
    · rfl
  · rw [destroy_setupViewport]
    rw [if_neg (by simp [hsv])]
  · rw [destroy_setupStage]
    rw [if_neg (by simp [hss])]

/-- Witness for `C8_destroy_absent_only_emits`: a second destroy of object 0
after `destroy oneObjHeap oneObjState 0` has removed it changes nothing but
the event log. -/
theorem C8_destroy_absent_only_emits_witness :
    (destroy (destroy oneObjHeap oneObjState 0).1
        (destroy oneObjHeap oneObjState 0).2.1 0).2.1._store =
      (destroy oneObjHeap oneObjState 0).2.1._store ∧
    (destroy (destroy oneObjHeap oneObjState 0).1
        (destroy oneObjHeap oneObjState 0).2.1 0).2.2 = 0 :=
  ⟨(C8_destroy_absent_only_emits (destroy oneObjHeap oneObjState 0).1
      (destroy oneObjHeap oneObjState 0).2.1 0 (by decide) (by decide) (by decide)
      (by decide) (by decide) (by decide)).2.1,
   (C8_destroy_absent_only_emits (destroy oneObjHeap oneObjState 0).1
      (destroy oneObjHeap oneObjState 0).2.1 0 (by decide) (by decide) (by decide)
      (by decide) (by decide) (by decide)).2.2.2.2.2.2.2.2⟩

/-- Claim C10: registry destruction removes by id equality, not reference
identity — after `destroy h s x`, an object remains in the store exactly when
it was there before and its `_id` differs from `x`'s; any registered object
sharing `x`'s id is removed even when `x` is a stand-in reference; and
destroying a never-registered object (id `undefined`, i.e. `none`) leaves the
store unchanged when every stored object has an assigned id, while still
emitting `didDestroy` carrying it and returning it. -/
theorem C10_destroy_by_id_equality (h : GHeap) (s : OMState) (x : Nat) :
    (∀ item, item ∈ (destroy h s x).2.1._store ↔
      item ∈ s._store ∧ (h x)._id ≠ (h item)._id) ∧
    (∀ y ∈ s._store, (h y)._id = (h x)._id → y ∉ (destroy h s x).2.1._store) ∧
    ((h x)._id = none → (∀ item ∈ s._store, ((h item)._id).isSome = true) →
      (destroy h s x).2.1._store = s._store) ∧
    (destroy h s x).2.1.events = s.events ++ [GameEvent.didDestroy x] ∧
    (destroy h s x).2.2 = x := by
  refine ⟨?_, ?_, ?_, destroy_events h s x, destroy_ret h s x⟩
  · intro item
    rw [destroy_store, List.mem_filter]
    simp
  · intro y hy hid hmem
    rw [destroy_store] at hmem
    have := (List.mem_filter.mp hmem).2
    simp [hid] at this
  · intro hnone hall
    rw [destroy_store]
    refine List.filter_eq_self.mpr ?_
    intro a ha
    have := hall a ha
    rw [hnone]
    rcases hsome : (h a)._id with _ | v
    · rw [hsome] at this
      simp at this
    · simp

/-- A stand-in heap: object 0 is the registered object with id 7; object 1 is
an unregistered stand-in carrying the same id 7; object 2 was never registered
(id `undefined`). -/
def standInHeap : GHeap := fun q =>
  if q = 0 then ⟨true, .generic, some 7, none⟩
  else if q = 1 then ⟨true, .generic, some 7, none⟩
  else ⟨true, .generic, none, none⟩

/-- Registry state matching `standInHeap`: only object 0 is stored. -/
def standInState : OMState := ⟨8, [0], [], [], none, none, []⟩

/-- Witness for `C10_destroy_by_id_equality`: destroying stand-in 1 removes
registered object 0 (same id 7), and destroying the never-registered object 2
(id `undefined`) leaves the store unchanged. -/
theorem C10_destroy_by_id_equality_witness :
    0 ∉ (destroy standInHeap standInState 1).2.1._store ∧
    (destroy standInHeap standInState 2).2.1._store = standInState._store :=
  ⟨(C10_destroy_by_id_equality standInHeap standInState 1).2.1 0 (by decide) rfl,
   (C10_destroy_by_id_equality standInHeap standInState 2).2.2.1 rfl
     (by decide)⟩

/-! ### The update scheduler (`UpdateManager`, src/unnamed/part_002) -/

/-- Events emitted by the update scheduler, with their payload fields. -/
inductive UEvent
  | willStart (initTime : Int)
  | didStart (initTime startTime : Int)
  | willStop
  | didStop (frameCount : Nat)
  | willUpdate (frameCount : Nat) (frameDelta startTime elapsedTime : Int)
  | didUpdate (frameCount : Nat) (frameDelta startTime elapsedTime : Int)
deriving DecidableEq, Repr

/-- The `UpdateManager`'s fields, plus `pending`: the number of
`requestAnimationFrame` callbacks currently scheduled by the host (the
browser's animation-frame queue, modelled as a counter). -/
structure UMState where
  _running : Bool
  _frameCount : Nat
  _frameDelta : Int
  _lastDelta : Int
  _startTime : Int
  _elapsedTime : Int
  _initTime : Int
  pending : Nat
deriving DecidableEq, Repr

/-- The property read by the guard of `_start` (src/unnamed/part_002 line 48):
the code tests `this.running`, but the class defines only the field `_running`
and the getter `isRunning` — there is no property named `running`, so the
JavaScript lookup always yields `undefined`. -/
def runningProp (_s : UMState) : Option Bool := none

/-- Embeds `UpdateManager._start`: guard on `this.running` (always `undefined`, see
`runningProp`); then emit `willStart`, set `_running`, record `_startTime`,
reset `_elapsedTime`, schedule a tick via `requestAnimationFrame`, and emit
`didStart`. -/
def umStart (s : UMState) (now : Int) : UMState × List UEvent :=
  if (runningProp s).getD false then (s, [])
  else
    let s1 := { s with
      _running := true
      _startTime := now
      _elapsedTime := 0
      pending := s.pending + 1 }
    (s1, [UEvent.willStart s._initTime, UEvent.didStart s._initTime now])

/-- Embeds `UpdateManager._stop`: emit `willStop` and clear `_running`; any pending
animation-frame callback is left scheduled. -/
def umStop (s : UMState) : UMState × List UEvent :=
  ({ s with _running := false }, [UEvent.willStop])

/-- Embeds `UpdateManager._update`, invoked by the host with timestamp `delta`,
consuming one pending animation-frame callback: emit `willUpdate` with the
current counters, increment `_frameCount`, recompute `_elapsedTime`,
`_frameDelta` and `_lastDelta`, emit `didUpdate`; then schedule the next tick
when still `_running`, otherwise emit `didStop` with the final frame count. -/
def umTick (s : UMState) (delta : Int) : UMState × List UEvent :=
  let ev1 := UEvent.willUpdate s._frameCount s._frameDelta s._startTime s._elapsedTime
  let fc := s._frameCount + 1
  let el := s._elapsedTime + (delta - s._startTime)
  let fd := delta - s._lastDelta
  let s1 := { s with
    pending := s.pending - 1
    _frameCount := fc
    _elapsedTime := el
    _frameDelta := fd
    _lastDelta := delta }
  let ev2 := UEvent.didUpdate fc fd s._startTime el
  if s1._running then ({ s1 with pending := s1.pending + 1 }, [ev1, ev2])
  else (s1, [ev1, ev2, UEvent.didStop fc])

/-- A sequence of ticks driven by the host, one per listed timestamp. -/
def runTicks (s : UMState) (ds : List Int) : UMState × List UEvent :=
  match ds with
  | [] => (s, [])
  | d :: rest =>
    let t := umTick s d
    let r := runTicks t.1 rest
    (r.1, t.2 ++ r.2)

/-- The scheduler before `start()`: idle, no frames, nothing scheduled. -/
def idleState (ti : Int) : UMState := ⟨false, 0, 0, 0, 0, 0, ti, 0⟩

/-- One full scheduler cycle from idle: `start()` at time `t0`, `ds.length`
ticks, `stop()`, then the single still-pending tick at timestamp `dlast`. -/
def scenario (ti t0 : Int) (ds : List Int) (dlast : Int) : UMState × List UEvent :=
  let a := umStart (idleState ti) t0
  let b := runTicks a.1 ds
  let c := umStop b.1
  let d := umTick c.1 dlast
  (d.1, a.2 ++ b.2 ++ c.2 ++ d.2)

def isWillStart : UEvent → Bool
  | .willStart _ => true
  | _ => false

def isDidStart : UEvent → Bool
  | .didStart _ _ => true
  | _ => false

def isWillStop : UEvent → Bool
  | .willStop => true
  | _ => false

def isDidStop : UEvent → Bool
  | .didStop _ => true
  | _ => false

def isWillUpdate : UEvent → Bool
  | .willUpdate _ _ _ _ => true
  | _ => false

def isDidUpdate : UEvent → Bool
  | .didUpdate _ _ _ _ => true
  | _ => false

/-- The frame counts carried by the `willUpdate` events of a trace, in order. -/
def willUpdateCounts (evs : List UEvent) : List Nat :=
  evs.filterMap fun e =>
    match e with
    | .willUpdate fc _ _ _ => some fc
    | _ => none

/-- The frame counts carried by the `didUpdate` events of a trace, in order. -/
def didUpdateCounts (evs : List UEvent) : List Nat :=
  evs.filterMap fun e =>
    match e with
    | .didUpdate fc _ _ _ => some fc
    | _ => none

lemma willUpdateCounts_append (a b : List UEvent) :
    willUpdateCounts (a ++ b) = willUpdateCounts a ++ willUpdateCounts b := by
  simp [willUpdateCounts]

lemma didUpdateCounts_append (a b : List UEvent) :
    didUpdateCounts (a ++ b) = didUpdateCounts a ++ didUpdateCounts b := by
  simp [didUpdateCounts]

lemma runTicks_running (s : UMState) (ds : List Int) (h : s._running = true) :
    (runTicks s ds).1._running = true ∧
    (runTicks s ds).1._frameCount = s._frameCount + ds.length ∧
    (runTicks s ds).1._startTime = s._startTime ∧
    (runTicks s ds).1._initTime = s._initTime ∧
    (s.pending = 1 → (runTicks s ds).1.pending = 1) ∧
    willUpdateCounts (runTicks s ds).2 = List.range' s._frameCount ds.length ∧
    didUpdateCounts (runTicks s ds).2 = List.range' (s._frameCount + 1) ds.length ∧
    (runTicks s ds).2.countP isWillStart = 0 ∧
    (runTicks s ds).2.countP isDidStart = 0 ∧
    (runTicks s ds).2.countP isWillStop = 0 ∧
    (runTicks s ds).2.countP isDidStop = 0 ∧
    (runTicks s ds).2.countP isWillUpdate = ds.length ∧
    (runTicks s ds).2.countP isDidUpdate = ds.length := by
  induction ds generalizing s with
  | nil =>
    simp [runTicks, willUpdateCounts, didUpdateCounts]
    exact h
  | cons d rest ih =>
    have htick : umTick s d =
        ({ s with
            pending := s.pending - 1 + 1
            _frameCount := s._frameCount + 1
            _elapsedTime := s._elapsedTime + (d - s._startTime)
            _frameDelta := d - s._lastDelta
            _lastDelta := d },
         [UEvent.willUpdate s._frameCount s._frameDelta s._startTime s._elapsedTime,
          UEvent.didUpdate (s._frameCount + 1) (d - s._lastDelta) s._startTime
            (s._elapsedTime + (d - s._startTime))]) := by
      simp only [umTick, h, if_true]
    have ih' := ih (umTick s d).1 (by rw [htick]; exact h)
    rw [htick] at ih'
    simp only [runTicks, htick]
    simp only [willUpdateCounts, didUpdateCounts, List.filterMap_append,
      List.countP_append] at ih' ⊢
    simp only [List.filterMap_cons, List.filterMap_nil, List.countP_cons,
      List.countP_nil]
    refine ⟨ih'.1, by rw [ih'.2.1]; simp; omega, ih'.2.2.1, ih'.2.2.2.1, ?_, ?_, ?_,
      ?_, ?_, ?_, ?_, ?_, ?_⟩
    · intro hp
      exact ih'.2.2.2.2.1 (by simp [hp])
    · rw [ih'.2.2.2.2.2.1]
      simp [isWillUpdate, isDidUpdate, List.range'_succ]
    · rw [ih'.2.2.2.2.2.2.1]
      simp [isWillUpdate, isDidUpdate, List.range'_succ]
    · simp [isWillStart, ih'.2.2.2.2.2.2.2.1]
    · simp [isDidStart, ih'.2.2.2.2.2.2.2.2.1]
    · simp [isWillStop, ih'.2.2.2.2.2.2.2.2.2.1]
    · simp [isDidStop, ih'.2.2.2.2.2.2.2.2.2.2.1]
    · simp [isWillUpdate, isDidUpdate, ih'.2.2.2.2.2.2.2.2.2.2.2.1]
      omega
    · simp [isWillUpdate, isDidUpdate, ih'.2.2.2.2.2.2.2.2.2.2.2.2]
      omega

/-- Claim C5: one full scheduler cycle from idle — `start()`, then `ds.length`
host ticks, then `stop()`, then the one still-pending tick. The trace opens
with exactly one `willStart` followed by exactly one `didStart`, both before
any `willUpdate`; each tick contributes exactly one `willUpdate` and one
`didUpdate`, the `willUpdate` frame counts being `0, 1, 2, …` (frame count
grows by exactly one per completed tick); after the `willStop` event exactly
one further `willUpdate` occurs; the trace ends with the single `didStop`
event, which carries the final frame count; and afterwards the scheduler is
not running with no callback pending, so no further tick can run. -/
theorem C5_scheduler_lifecycle (ti t0 dlast : Int) (ds : List Int) :
    (scenario ti t0 ds dlast).2.take 2 =
      [UEvent.willStart ti, UEvent.didStart ti t0] ∧
    (scenario ti t0 ds dlast).2.countP isWillStart = 1 ∧
    (scenario ti t0 ds dlast).2.countP isDidStart = 1 ∧
    (scenario ti t0 ds dlast).2.countP isWillUpdate = ds.length + 1 ∧
    (scenario ti t0 ds dlast).2.countP isDidUpdate = ds.length + 1 ∧
    willUpdateCounts (scenario ti t0 ds dlast).2 = List.range (ds.length + 1) ∧
    didUpdateCounts (scenario ti t0 ds dlast).2 = List.range' 1 (ds.length + 1) ∧
    (scenario ti t0 ds dlast).2.countP isDidStop = 1 ∧
    (scenario ti t0 ds dlast).2.getLast? =
      some (UEvent.didStop (ds.length + 1)) ∧
    (∃ pre post, (scenario ti t0 ds dlast).2 = pre ++ UEvent.willStop :: post ∧
      pre.countP isWillUpdate = ds.length ∧
      post.countP isWillUpdate = 1 ∧ post.countP isDidStop = 1) ∧
    (scenario ti t0 ds dlast).1._running = false ∧
    (scenario ti t0 ds dlast).1.pending = 0 ∧
    (scenario ti t0 ds dlast).1._frameCount = ds.length + 1 := by
  have ha : umStart (idleState ti) t0 =
      ((⟨true, 0, 0, 0, t0, 0, ti, 1⟩ : UMState),
       [UEvent.willStart ti, UEvent.didStart ti t0]) := rfl
  obtain ⟨hrun, hfc, hst, hit, hpend, hwuc, hduc, hws, hdsrt, hwst, hdst, hwu, hdu⟩ :=
    runTicks_running (⟨true, 0, 0, 0, t0, 0, ti, 1⟩ : UMState) ds rfl
  have hpend1 : (runTicks (⟨true, 0, 0, 0, t0, 0, ti, 1⟩ : UMState) ds).1.pending = 1 :=
    hpend rfl
  have hd : ∀ C : UMState, C._running = false →
      umTick C dlast =
        ((⟨false, C._frameCount + 1, dlast - C._lastDelta, dlast, C._startTime,
            C._elapsedTime + (dlast - C._startTime), C._initTime, C.pending - 1⟩ : UMState),
         [UEvent.willUpdate C._frameCount C._frameDelta C._startTime C._elapsedTime,
          UEvent.didUpdate (C._frameCount + 1) (dlast - C._lastDelta) C._startTime
            (C._elapsedTime + (dlast - C._startTime)),
          UEvent.didStop (C._frameCount + 1)]) := by
    intro C hC
    simp only [umTick, hC, Bool.false_eq_true, if_false]
  have hscen : scenario ti t0 ds dlast =
      ((umTick { (runTicks (⟨true, 0, 0, 0, t0, 0, ti, 1⟩ : UMState) ds).1 with
          _running := false } dlast).1,
       [UEvent.willStart ti, UEvent.didStart ti t0] ++
        (runTicks (⟨true, 0, 0, 0, t0, 0, ti, 1⟩ : UMState) ds).2 ++
        [UEvent.willStop] ++
        (umTick { (runTicks (⟨true, 0, 0, 0, t0, 0, ti, 1⟩ : UMState) ds).1 with
          _running := false } dlast).2) := by
    simp only [scenario, ha, umStop]
  rw [hscen,
    hd { (runTicks (⟨true, 0, 0, 0, t0, 0, ti, 1⟩ : UMState) ds).1 with _running := false }
      rfl]
  refine ⟨?_, ?_, ?_, ?_, ?_, ?_, ?_, ?_, ?_, ?_, ?_, ?_, ?_⟩
  · simp
  · simp [List.countP_append, List.countP_cons, isWillStart, hws]
  · simp [List.countP_append, List.countP_cons, isDidStart, hdsrt]
  · simp [List.countP_append, List.countP_cons, isWillUpdate, hwu]
  · simp [List.countP_append, List.countP_cons, isDidUpdate, hdu]
  · rw [willUpdateCounts_append, willUpdateCounts_append, willUpdateCounts_append,
      hwuc, List.range_eq_range']
    simp [willUpdateCounts, List.range'_concat, hfc]
  · rw [didUpdateCounts_append, didUpdateCounts_append, didUpdateCounts_append,
      hduc]
    simp [didUpdateCounts, List.range'_concat, hfc]
    omega
  · simp [List.countP_append, List.countP_cons, isDidStop, hdst]
  · rw [List.getLast?_append]
    simp [hfc]
  · refine ⟨[UEvent.willStart ti, UEvent.didStart ti t0] ++
      (runTicks (⟨true, 0, 0, 0, t0, 0, ti, 1⟩ : UMState) ds).2,
      [UEvent.willUpdate
          (runTicks (⟨true, 0, 0, 0, t0, 0, ti, 1⟩ : UMState) ds).1._frameCount
          (runTicks (⟨true, 0, 0, 0, t0, 0, ti, 1⟩ : UMState) ds).1._frameDelta
          (runTicks (⟨true, 0, 0, 0, t0, 0, ti, 1⟩ : UMState) ds).1._startTime
          (runTicks (⟨true, 0, 0, 0, t0, 0, ti, 1⟩ : UMState) ds).1._elapsedTime,
       UEvent.didUpdate
          ((runTicks (⟨true, 0, 0, 0, t0, 0, ti, 1⟩ : UMState) ds).1._frameCount + 1)
          (dlast - (runTicks (⟨true, 0, 0, 0, t0, 0, ti, 1⟩ : UMState) ds).1._lastDelta)
          (runTicks (⟨true, 0, 0, 0, t0, 0, ti, 1⟩ : UMState) ds).1._startTime
          ((runTicks (⟨true, 0, 0, 0, t0, 0, ti, 1⟩ : UMState) ds).1._elapsedTime +
            (dlast - (runTicks (⟨true, 0, 0, 0, t0, 0, ti, 1⟩ : UMState) ds).1._startTime)),
       UEvent.didStop
          ((runTicks (⟨true, 0, 0, 0, t0, 0, ti, 1⟩ : UMState) ds).1._frameCount + 1)],
      by simp, ?_, ?_, ?_⟩
    · simp [List.countP_append, List.countP_cons, isWillStart, isDidStart,
        isWillUpdate, hwu]
    · simp [List.countP_cons, isWillUpdate, isDidUpdate, isDidStop]
    · simp [List.countP_cons, isWillUpdate, isDidUpdate, isDidStop]
  · rfl
  · simp [hpend1]
  · simp [hfc]

/-- A scheduler that is already running: `_running = true`, three frames done,
one animation-frame callback pending. -/
def runningState : UMState := ⟨true, 3, 1, 5, 100, 42, 7, 1⟩

/-- Claim C6, code bug: `start()` is NOT a no-op while running. The guard in
`_start` reads `this.running`, a property that does not exist (the class
defines the field `_running` and the getter `isRunning`), so the lookup yields
`undefined` and the early return never fires: calling `_start` on a running
scheduler emits `willStart` and `didStart` again, resets the start timestamp
and the elapsed-time accounting, and schedules an additional animation-frame
loop (`pending` grows from 1 to 2). -/
theorem C6_start_not_noop_while_running :
    runningState._running = true ∧
    runningProp runningState = none ∧
    (umStart runningState 200).2 = [UEvent.willStart 7, UEvent.didStart 7 200] ∧
    (umStart runningState 200).1._startTime = 200 ∧
    (umStart runningState 200).1._elapsedTime = 0 ∧
    (umStart runningState 200).1.pending = 2 :=
  ⟨rfl, rfl, rfl, rfl, rfl, rfl⟩

end MobSin
